import Mathlib

/-!
# Verification of the Live-Shoe-Tracker reconciliation pipeline

Shallow embedding of the record-reconciliation pipeline of the
Live-Shoe-Tracker repository, and proofs checking the natural-language
specification against it.  Embedded source files:

* `packages/scrapers/python/ingest.py` — grouping and merge
  (`normalize_name`, `merge_docs`, `run_ingest`);
* `packages/scrapers/python/base_scraper.py` — `normalize_release`,
  `_parse_price`;
* `packages/scrapers/python/sync_firestore_to_supabase.py` —
  `_normalize_row`, `_patch_by_url`, `sync_once`;
* `packages/scrapers/python/soleretriever_scraper.py` — `can_fetch`,
  `fetch_page`, `save_to_supabase`, `save_to_postgres_direct`.

External Python collaborators (`datetime.fromisoformat`, `float(...)`,
the HTTP layer, the PostgREST/PostgreSQL endpoints, the wall clock) are
modelled as explicit function parameters; everything else is translated
directly from the Python source.
-/

namespace PyStr

/-- `hasPre pat text`: `pat` is a prefix of `text` (on character lists). -/
def hasPre : List Char → List Char → Bool
  | [], _ => true
  | _ :: _, [] => false
  | p :: ps, c :: cs => p == c && hasPre ps cs

/-- `hasSub pat text`: `pat` occurs as a contiguous substring of `text`. -/
def hasSub (pat : List Char) : List Char → Bool
  | [] => hasPre pat []
  | c :: cs => hasPre pat (c :: cs) || hasSub pat cs

/-- Python's `pat in s` substring test. -/
def containsSub (pat s : String) : Bool := hasSub pat.data s.data

/-- ASCII lower-casing of one character, as Python's `str.lower` acts on
ASCII.  (Non-ASCII letters are irrelevant to the embedded code paths: in
`normalize_name` every non-`[a-z0-9]` character is replaced by a space
immediately afterwards.) -/
def lowerChar (c : Char) : Char :=
  if 65 ≤ c.toNat ∧ c.toNat ≤ 90 then Char.ofNat (c.toNat + 32) else c

/-- Python's `str.strip()`: drop leading and trailing whitespace. -/
def pyStrip (s : String) : String :=
  String.mk ((((s.data.dropWhile Char.isWhitespace).reverse).dropWhile
    Char.isWhitespace).reverse)

end PyStr

namespace Ingest

/-- A character kept by `normalize_name`'s regex `[^a-z0-9]+` after
lower-casing: `a`–`z` or `0`–`9`. -/
def isKept (c : Char) : Bool :=
  if (97 ≤ c.toNat ∧ c.toNat ≤ 122) ∨ (48 ≤ c.toNat ∧ c.toNat ≤ 57) then true
  else false

/-- Split a character list into the maximal runs of kept characters
(separator: any non-kept character). -/
def keptTokens : List Char → List (List Char)
  | [] => []
  | c :: cs =>
    let rest := keptTokens cs
    if isKept c then
      match cs with
      | [] => [[c]]
      | c' :: _ =>
        if isKept c' then
          match rest with
          | [] => [[c]]
          | t :: ts => (c :: t) :: ts
        else [c] :: rest
    else rest

/-- `ingest.py` `normalize_name`: lower-case, collapse each run of
non-alphanumeric characters to a single space, collapse whitespace,
strip.  Equivalently: the kept-character runs joined by single spaces. -/
def normalize_name (s : String) : String :=
  if s = "" then ""
  else
    let mapped := s.data.map PyStr.lowerChar
    String.intercalate " " ((keptTokens mapped).map String.mk)

/-- `DateVal` — a value found under `release_date` in a scraped document:
either a string (parsed with `datetime.fromisoformat`) or an
already-parsed datetime, modelled as an integer timestamp. -/
inductive DateVal
  | str (s : String)
  | dt (t : Int)
deriving DecidableEq, Repr

/-- Python truthiness of a `release_date` value: empty strings are falsy,
datetimes are always truthy. -/
def DateVal.truthy : DateVal → Bool
  | .str s => s ≠ ""
  | .dt _ => true

/-- One scraped document, as consumed by `merge_docs` / `run_ingest`
(`doc.to_dict()`).  `none` stands for an absent (or `None`) key;
`metadata_raw = some r` stands for a truthy `metadata` dict whose
`raw` entry is `r`. -/
structure RawDoc where
  name : Option String := none
  sku : Option String := none
  brand : Option String := none
  images : Option (List String) := none
  release_date : Option DateVal := none
  locations : Option (List String) := none
  sources : Option (List String) := none
  status : Option String := none
  metadata_raw : Option (Option String) := none
deriving DecidableEq, Repr

/-- Python truthiness filter on an optional string: keep only a present,
non-empty value. -/
def truthyStr : Option String → Option String
  | some s => if s = "" then none else some s
  | none => none

/-- `run_ingest`'s grouping key: `"sku::" + sku` when `sku` is truthy,
else `"name::" + normalize_name(name)`. -/
def clusterKey (d : RawDoc) : String :=
  match truthyStr d.sku with
  | some s => "sku::" ++ s
  | none =>
    match d.name with
    | some n => "name::" ++ normalize_name n
    | none => "name::" ++ normalize_name ""

/-- Append a document to its group (`groups[key].append(data)` on a
`defaultdict(list)`, which preserves key insertion order). -/
def addToGroup (gs : List (String × List RawDoc)) (k : String) (d : RawDoc) :
    List (String × List RawDoc) :=
  match gs with
  | [] => [(k, [d])]
  | (k', ds) :: rest =>
    if k' = k then (k', ds ++ [d]) :: rest else (k', ds) :: addToGroup rest k d

/-- The grouping loop of `run_ingest`. -/
def groupDocs (docs : List RawDoc) : List (String × List RawDoc) :=
  docs.foldl (fun gs d => addToGroup gs (clusterKey d) d) []

/-- The list of documents grouped under key `k`. -/
def lookupGroup (gs : List (String × List RawDoc)) (k : String) :
    Option (List RawDoc) :=
  (gs.find? (fun g => g.1 == k)).map (fun g => g.2)

/-- `names = [d.get("name") for d in docs if d.get("name")]`. -/
def mergedNames (docs : List RawDoc) : List String :=
  docs.filterMap (fun d => truthyStr d.name)

/-- `next((d.get("sku") for d in docs if d.get("sku")), None)`. -/
def firstTruthy (f : RawDoc → Option String) (docs : List RawDoc) :
    Option String :=
  (docs.filterMap (fun d => truthyStr (f d))).head?

/-- The image-merging loop: append each truthy, not-yet-seen image. -/
def dedupAppend (acc : List String) (xs : List String) : List String :=
  xs.foldl (fun a img => if img ≠ "" ∧ img ∉ a then a ++ [img] else a) acc

/-- `merged["images"]` accumulation over all documents. -/
def mergedImages (docs : List RawDoc) : List String :=
  docs.foldl (fun a d => dedupAppend a (d.images.getD [])) []

/-- The locations/sources union loop: append each not-yet-seen element
(no truthiness check on elements). -/
def unionAppend (acc : List String) (xs : List String) : List String :=
  xs.foldl (fun a x => if x ∉ a then a ++ [x] else a) acc

/-- `merged["locations"]` accumulation. -/
def mergedLocations (docs : List RawDoc) : List String :=
  docs.foldl (fun a d => unionAppend a (d.locations.getD [])) []

/-- `merged["sources"]` accumulation. -/
def mergedSources (docs : List RawDoc) : List String :=
  docs.foldl (fun a d => unionAppend a (d.sources.getD [])) []

/-- The truthy `release_date` values of a cluster. -/
def mergedDateVals (docs : List RawDoc) : List DateVal :=
  docs.filterMap (fun d =>
    match d.release_date with
    | some v => if v.truthy then some v else none
    | none => none)

/-- `parsed`: strings through `datetime.fromisoformat` (the collaborator
`parse`; unparsable strings are skipped), datetimes kept as-is. -/
def parsedDates (parse : String → Option Int) (docs : List RawDoc) :
    List Int :=
  (mergedDateVals docs).filterMap (fun v =>
    match v with
    | .str s => parse s
    | .dt t => some t)

/-- Python `max` on a nonempty list (`none` on an empty one). -/
def pyMaxInt : List Int → Option Int
  | [] => none
  | x :: xs => some (xs.foldl max x)

/-- The status rank table of `merge_docs`:
`{"live": 3, "upcoming": 2, "announced": 1}`; anything else
(including `available` and `sold_out`) gets `.get(s, 0) = 0`. -/
def statusPriority (s : String) : Nat :=
  if s = "live" then 3
  else if s = "upcoming" then 2
  else if s = "announced" then 1
  else 0

/-- The truthy statuses of a cluster, in document order. -/
def mergedStatuses (docs : List RawDoc) : List String :=
  docs.filterMap (fun d => truthyStr d.status)

/-- Python `max(statuses, key = ...)`: the first element attaining the
maximal key (later elements replace only on a strictly larger key). -/
def pyMaxBy (f : String → Nat) : List String → Option String
  | [] => none
  | x :: xs => some (xs.foldl (fun best y => if f y > f best then y else best) x)

/-- `merged["raw_sources"]`. -/
def mergedRawSources (docs : List RawDoc) : List (Option String) :=
  docs.filterMap (fun d => d.metadata_raw)

/-- The merged document produced by `merge_docs`.  `release_date` is the
parsed maximum (an integer timestamp), `last_merged_at` the wall clock
at merge time. -/
structure MergedDoc where
  name : Option String
  sku : Option String
  brand : Option String
  images : Option (List String)
  release_date : Option Int
  locations : List String
  sources : List String
  status : Option String
  raw_sources : List (Option String)
  last_merged_at : Int
deriving DecidableEq, Repr

/-- `ingest.py` `merge_docs`, with `datetime.fromisoformat` passed in as
`parse` and `datetime.utcnow()` as `now`. -/
def merge_docs (parse : String → Option Int) (now : Int)
    (docs : List RawDoc) : MergedDoc :=
  { name := (mergedNames docs).head?
    sku := firstTruthy RawDoc.sku docs
    brand := firstTruthy RawDoc.brand docs
    images := if mergedImages docs = [] then none else some (mergedImages docs)
    release_date := pyMaxInt (parsedDates parse docs)
    locations := mergedLocations docs
    sources := mergedSources docs
    status := pyMaxBy statusPriority (mergedStatuses docs)
    raw_sources := mergedRawSources docs
    last_merged_at := now }

/-- `key.replace(" ", "_")` for the destination document id. -/
def docIdOf (k : String) : String :=
  String.mk (k.data.map (fun c => if c = ' ' then '_' else c))

/-- The pure core of `run_ingest`: group the batch, merge each group,
emit `(doc_id, merged)` pairs in group order. -/
def run_ingest (parse : String → Option Int) (now : Int)
    (docs : List RawDoc) : List (String × MergedDoc) :=
  (groupDocs docs).map (fun g => (docIdOf g.1, merge_docs parse now g.2))

end Ingest

namespace BaseScraper

/-- A raw `retail_price` value: a number (Python `int`/`float`, modelled
as `Rat`) or a free-text string. -/
inductive PriceVal
  | num (x : Rat)
  | str (s : String)
deriving DecidableEq, Repr

/-- The raw dictionary handed to `normalize_release` by a scraper.
`none` is an absent key. -/
structure RawRelease where
  shoe_name : Option String := none
  release_date : Option String := none
  retail_price : Option PriceVal := none
  style_code : Option String := none
  image_url : Option String := none
  product_url : Option String := none
  brand : Option String := none
  status : Option String := none
  scraped_url : Option String := none
deriving DecidableEq, Repr

/-- `_parse_price`'s cleaning step: drop currency symbols and thousands
separators, then strip. -/
def cleanPrice (s : String) : String :=
  PyStr.pyStrip (String.mk (s.data.filter
    (fun c => !(c == '$' || c == ',' || c == '€' || c == '£'))))

/-- `base_scraper.py` `_parse_price`, with Python's `float(...)` string
parser passed in as `parseF` (returning `none` where `float` raises). -/
def parse_price (parseF : String → Option Rat) :
    Option PriceVal → Option Rat
  | none => none
  | some (.num x) => some x
  | some (.str s) => parseF (cleanPrice s)

/-- The normalized release dictionary built by `normalize_release`.
Fields that the code always fills with a string are `String`; fields it
passes through unchanged stay `Option`. -/
structure NormalizedRelease where
  shoe_name : String
  release_date : Option String
  retail_price : Option Rat
  style_code : Option String
  image_url : Option String
  product_url : Option String
  brand : String
  status : String
  scraped_url : String
  scraper_name : String
  scraped_at : Int
deriving DecidableEq, Repr

/-- `base_scraper.py` `normalize_release`: `raw_data.get(key, default)`
with the literal defaults of the source (`""` for `shoe_name`,
`"Unknown"` for `brand`, `"upcoming"` for `status`, `self.base_url` for
`scraped_url`), `datetime.utcnow()` passed in as `now`. -/
def normalize_release (parseF : String → Option Rat)
    (baseUrl scraperName : String) (now : Int) (r : RawRelease) :
    NormalizedRelease :=
  { shoe_name := PyStr.pyStrip (r.shoe_name.getD "")
    release_date := r.release_date
    retail_price := parse_price parseF r.retail_price
    style_code := r.style_code
    image_url := r.image_url
    product_url := r.product_url
    brand := r.brand.getD "Unknown"
    status := r.status.getD "upcoming"
    scraped_url := r.scraped_url.getD baseUrl
    scraper_name := scraperName
    scraped_at := now }

end BaseScraper

namespace SyncFS

/-- A Firestore document value as seen by
`sync_firestore_to_supabase.py`: string, number, boolean, array, or a
timestamp object (carrying its `isoformat` rendering). -/
inductive Val
  | s (x : String)
  | num (x : Rat)
  | b (x : Bool)
  | arr (xs : List String)
  | ts (iso : String)
deriving DecidableEq, Repr

/-- Python truthiness of a document value. -/
def Val.truthy : Val → Bool
  | .s x => x ≠ ""
  | .num x => if x = 0 then false else true
  | .b x => x
  | .arr xs => xs ≠ []
  | .ts _ => true

/-- `_to_iso`: a timestamp renders to its ISO string, everything else is
returned unchanged. -/
def toIso : Val → Val
  | .ts iso => .s iso
  | v => v

/-- Python `a or b` on optional document values: `a` when truthy, else
`b` (which may itself be absent or falsy). -/
def pyOrOpt (a b : Option Val) : Option Val :=
  match a with
  | some v => if v.truthy then some v else b
  | none => b

/-- Python `a or dflt` with a constant default. -/
def pyOrDefault (a : Option Val) (dflt : Val) : Val :=
  match a with
  | some v => if v.truthy then v else dflt
  | none => dflt

/-- `_to_iso(d.get(k)) if d.get(k) else None`. -/
def isoIfTruthy (o : Option Val) : Option Val :=
  match o with
  | some v => if v.truthy then some (toIso v) else none
  | none => none

/-- A Firestore document streamed by `_iter_docs` (`none` = absent key). -/
structure FsDoc where
  title : Option Val := none
  name : Option Val := none
  productName : Option Val := none
  url : Option Val := none
  brand : Option Val := none
  sku : Option Val := none
  style_code : Option Val := none
  colorway : Option Val := none
  price : Option Val := none
  currency : Option Val := none
  release_date : Option Val := none
  status : Option Val := none
  has_raffle : Option Val := none
  raffle_retailers : Option Val := none
  image_url : Option Val := none
  images : Option Val := none
  collection : Option Val := none
  category : Option Val := none
  description : Option Val := none
  tags : Option Val := none
  source : Option Val := none
  scraped_at : Option Val := none
  created_at : Option Val := none
  updated_at : Option Val := none
deriving DecidableEq, Repr

/-- `_normalize_row`'s price cleaning (`replace('$','')`,
`replace(',','')`, `strip()`). -/
def cleanPrice (s : String) : String :=
  PyStr.pyStrip (String.mk (s.data.filter (fun c => !(c == '$' || c == ','))))

/-- The price coercion of `_normalize_row`: a string is parsed with
`float` (the collaborator `parseF`); on failure the original string is
kept (`except: pass`).  Non-strings pass through. -/
def coercePrice (parseF : String → Option Rat) : Option Val → Option Val
  | some (.s str) =>
    match parseF (cleanPrice str) with
    | some q => some (.num q)
    | none => some (.s str)
  | v => v

/-- `d.get('has_raffle') if isinstance(d.get('has_raffle'), bool) else
False`. -/
def hasRaffleVal : Option Val → Val
  | some (.b x) => .b x
  | _ => .b false

/-- Python truthiness of the document's `url`. -/
def urlTruthy (d : FsDoc) : Bool :=
  match d.url with
  | some v => v.truthy
  | none => false

/-- The `row` dictionary literal of `_normalize_row`, before the
`is not None` filter (`none` values are the dictionary's `None`s). -/
def rowRaw (parseF : String → Option Rat) (d : FsDoc) :
    List (String × Option Val) :=
  [("title", pyOrOpt d.title (pyOrOpt d.name d.productName)),
   ("url", d.url),
   ("brand", d.brand),
   ("sku", d.sku),
   ("style_code", d.style_code),
   ("colorway", d.colorway),
   ("price", coercePrice parseF d.price),
   ("currency", some (pyOrDefault d.currency (.s "USD"))),
   ("release_date", isoIfTruthy d.release_date),
   ("status", d.status),
   ("has_raffle", some (hasRaffleVal d.has_raffle)),
   ("raffle_retailers", d.raffle_retailers),
   ("image_url", d.image_url),
   ("images", d.images),
   ("collection", d.collection),
   ("category", d.category),
   ("description", d.description),
   ("tags", d.tags),
   ("source", some (pyOrDefault d.source (.s "firestore-sync"))),
   ("scraped_at", isoIfTruthy d.scraped_at),
   ("created_at", isoIfTruthy d.created_at),
   ("updated_at", isoIfTruthy d.updated_at)]

/-- `sync_firestore_to_supabase.py` `_normalize_row`: empty when `url`
is falsy, else the row with every `None` value removed
(`{k: v for k, v in row.items() if v is not None}`). -/
def normalize_row (parseF : String → Option Rat) (d : FsDoc) :
    List (String × Val) :=
  if urlTruthy d then
    (rowRaw parseF d).filterMap (fun kv => kv.2.map (fun v => (kv.1, v)))
  else []

/-- First value stored under key `k` in a payload. -/
def lookupRow (row : List (String × Val)) (k : String) : Option Val :=
  (row.find? (fun kv => kv.1 == k)).map (fun kv => kv.2)

/-- The column state after a PATCH (or direct `UPDATE ... SET`) that
sets exactly the payload's keys: patched columns take the payload value,
all other columns keep their previous value. -/
def applyPatch (row : List (String × Val)) (ex : String → Option Val) :
    String → Option Val :=
  fun k =>
    match lookupRow row k with
    | some v => some v
    | none => ex k

/-- Outcome of one `_patch_by_url` PATCH request: a 200/204 with a JSON
list body (`okList`), with a non-list body (`okNonList`), with no JSON
body (`okNoBody`), or any other status code. -/
inductive PatchResp
  | okList (n : Nat)
  | okNonList
  | okNoBody
  | status (code : Nat)
deriving DecidableEq, Repr

/-- The integer `_patch_by_url` returns: the list length on 200/204 with
a list body, `1` on a bodyless 204, and `0` otherwise — a 404, a 401/403
auth failure and every other error status alike. -/
def patchResult : PatchResp → Nat
  | .okList n => n
  | .okNonList => 0
  | .okNoBody => 1
  | .status _ => 0

/-- Outcome of one `_insert_row` POST request (its status code). -/
inductive InsResp
  | status (code : Nat)
deriving DecidableEq, Repr

/-- `_insert_row` returns `True` exactly on 200/201. -/
def insertOk : InsResp → Bool
  | .status c => c == 200 || c == 201

/-- The per-run counters of `sync_once`, plus `primaryCalls`, an
instrumentation counter of REST (PostgREST) requests issued — the only
write path `sync_once` has.  The direct-PostgreSQL code in this file
runs only under the `--direct-pg` CLI flag, chosen at startup; nothing
in `sync_once` can reach it. -/
structure SyncStats where
  processed : Nat := 0
  upserts : Nat := 0
  updates : Nat := 0
  inserts : Nat := 0
  skipped : Nat := 0
  errors : Nat := 0
  primaryCalls : Nat := 0
deriving DecidableEq, Repr

/-- One iteration of the `sync_once` loop over a streamed document and
the responses its PATCH and (if reached) POST would get. -/
def syncStep (parseF : String → Option Rat) (st : SyncStats)
    (item : FsDoc × PatchResp × InsResp) : SyncStats :=
  let st := { st with processed := st.processed + 1 }
  let row := normalize_row parseF item.1
  if row = [] then { st with skipped := st.skipped + 1 }
  else
    let st := { st with primaryCalls := st.primaryCalls + 1 }
    let updated := patchResult item.2.1
    if updated ≠ 0 then
      { st with updates := st.updates + 1, upserts := st.upserts + 1 }
    else
      let st := { st with primaryCalls := st.primaryCalls + 1 }
      if insertOk item.2.2 then
        { st with inserts := st.inserts + 1, upserts := st.upserts + 1 }
      else { st with errors := st.errors + 1 }

/-- `sync_firestore_to_supabase.py` `sync_once`: PATCH by url; when the
PATCH matched nothing (or failed), POST; count an error on a failed
POST.  Every record goes through the same primary REST path. -/
def sync_once (parseF : String → Option Rat)
    (items : List (FsDoc × PatchResp × InsResp)) : SyncStats :=
  items.foldl (syncStep parseF) {}

end SyncFS

namespace SoleFetch

/-- One HTTP-layer answer to `self.session.get`: success, an HTTP error
status (with an optional `Retry-After` header value), or a non-HTTP
exception (connection error, timeout, ...). -/
inductive HttpResp
  | ok
  | http (code : Nat) (retryAfter : Option Nat)
  | exc
deriving DecidableEq, Repr

/-- The scraper's counters (`self.stats`) plus instrumentation: `reqs`
counts outbound network calls, `waits` logs the sleeps of the retry
loop (`Retry-After` waits and `2 ** attempt` backoffs). -/
structure FetchStats where
  reqs : Nat := 0
  pages : Nat := 0
  errors : Nat := 0
  blocked : Nat := 0
  waits : List Nat := []
deriving DecidableEq, Repr

/-- Which return site of `fetch_page` fired: parsed soup (`success`),
the robots refusal, the 404 return, the non-429/404 HTTP-error return,
the final-attempt exception return, or falling off the retry loop
(`return None` after the `for`). -/
inductive FetchOutcome
  | success
  | blockedByRobots
  | notFound
  | httpFailed
  | excFailed
  | exhausted
deriving DecidableEq, Repr

/-- `soleretriever_scraper.py` `can_fetch`: the robots-policy answer,
overridden to `False` on the hard-coded denylist patterns `/raffle/`,
`/api/`, `/user/`. -/
def can_fetch (robots : String → Bool) (url : String) : Bool :=
  let cf := robots url
  if PyStr.containsSub "/raffle/" url || PyStr.containsSub "/api/" url
      || PyStr.containsSub "/user/" url then false
  else cf

/-- The `for attempt in range(retry_count)` body of `fetch_page`.  The
oracle maps the index of an outbound request to its HTTP answer. -/
def fetchLoop (oracle : Nat → HttpResp) (retryCount : Nat) :
    List Nat → FetchStats → FetchOutcome × FetchStats
  | [], st => (.exhausted, st)
  | attempt :: rest, st =>
    let resp := oracle st.reqs
    let st1 := { st with reqs := st.reqs + 1 }
    match resp with
    | .ok => (.success, { st1 with pages := st1.pages + 1 })
    | .http code ra =>
      if code = 429 then
        fetchLoop oracle retryCount rest
          { st1 with waits := st1.waits ++ [ra.getD 60] }
      else if code = 404 then (.notFound, st1)
      else
        (.httpFailed,
          if attempt = retryCount - 1 then
            { st1 with errors := st1.errors + 1 }
          else st1)
    | .exc =>
      if attempt < retryCount - 1 then
        fetchLoop oracle retryCount rest
          { st1 with waits := st1.waits ++ [2 ^ attempt] }
      else (.excFailed, { st1 with errors := st1.errors + 1 })

/-- `soleretriever_scraper.py` `fetch_page`: the robots pre-check (no
network call, `blocked_by_robots` counter) and the retry loop.  The
constant 1.5 s pacing sleep before the loop has no observable effect
on the modelled state and is omitted. -/
def fetch_page (robots : String → Bool) (oracle : Nat → HttpResp)
    (url : String) (retryCount : Nat) (st : FetchStats) :
    FetchOutcome × FetchStats :=
  if can_fetch robots url then
    fetchLoop oracle retryCount (List.range retryCount) st
  else (.blockedByRobots, { st with blocked := st.blocked + 1 })

end SoleFetch

namespace SoleSink

/-- One answer of the Supabase client's `upsert(...).execute()`: a
result with data, a result without data, or a raised exception with its
message text. -/
inductive UpsertResp
  | okData
  | noData
  | exc (msg : String)
deriving DecidableEq, Repr

/-- `'JWT' in error_msg or 'JWS' in error_msg or '401' in error_msg`. -/
def isAuthMsg (m : String) : Bool :=
  PyStr.containsSub "JWT" m || PyStr.containsSub "JWS" m
    || PyStr.containsSub "401" m

/-- Whether a response is the auth failure that triggers the fallback. -/
def isAuthResp : UpsertResp → Bool
  | .exc m => isAuthMsg m
  | _ => false

/-- Counters of one `save_to_postgres_direct` run: rows saved, per-item
INSERT/UPSERT statements attempted, errors counted. -/
structure PgResult where
  saved : Nat := 0
  attempts : Nat := 0
  errors : Nat := 0
deriving DecidableEq, Repr

/-- The per-item loop of `save_to_postgres_direct` (`pgOk i` = whether
item `i`'s upsert statement succeeds). -/
def pgRunLoop {α : Type} (pgOk : Nat → Bool) :
    List α → Nat → PgResult → PgResult
  | [], _, r => r
  | _ :: rest, i, r =>
    if pgOk i then
      pgRunLoop pgOk rest (i + 1)
        { r with saved := r.saved + 1, attempts := r.attempts + 1 }
    else
      pgRunLoop pgOk rest (i + 1)
        { r with errors := r.errors + 1, attempts := r.attempts + 1 }

/-- `soleretriever_scraper.py` `save_to_postgres_direct`: on a failed
connection, no statement runs and every item is counted as an error;
otherwise each item gets one `INSERT ... ON CONFLICT (url)` upsert. -/
def save_to_postgres_direct {α : Type} (connOk : Bool) (pgOk : Nat → Bool)
    (items : List α) : PgResult :=
  if connOk then pgRunLoop pgOk items 0 {}
  else { errors := items.length }

/-- Result of one `save_to_supabase` call: the returned saved count, the
`self.stats['errors']` increments, the number of primary (Supabase
client) upsert calls, the number of direct-PostgreSQL statements, and
whether the JWT fallback fired. -/
structure SaveResult where
  saved : Nat := 0
  errors : Nat := 0
  primaryCalls : Nat := 0
  pgAttempts : Nat := 0
  fellBack : Bool := false
deriving DecidableEq, Repr

/-- The `for item in items` loop of `save_to_supabase`.  `allItems` is
the full batch: the JWT fallback hands the *whole* list (not just the
remainder) to `save_to_postgres_direct` and returns its count. -/
def saveLoop {α : Type} (resp : Nat → UpsertResp) (connOk : Bool)
    (pgOk : Nat → Bool) (allItems : List α) :
    List α → Nat → SaveResult → SaveResult
  | [], _, acc => acc
  | _ :: rest, idx, acc =>
    let acc1 := { acc with primaryCalls := acc.primaryCalls + 1 }
    match resp idx with
    | .okData =>
      saveLoop resp connOk pgOk allItems rest (idx + 1)
        { acc1 with saved := acc1.saved + 1 }
    | .noData =>
      saveLoop resp connOk pgOk allItems rest (idx + 1)
        { acc1 with errors := acc1.errors + 1 }
    | .exc msg =>
      if isAuthMsg msg then
        let pg := save_to_postgres_direct connOk pgOk allItems
        { acc1 with
            saved := pg.saved
            errors := acc1.errors + pg.errors
            pgAttempts := pg.attempts
            fellBack := true }
      else
        saveLoop resp connOk pgOk allItems rest (idx + 1)
          { acc1 with errors := acc1.errors + 1 }

/-- `soleretriever_scraper.py` `save_to_supabase` (the same shape is
repeated in `news_scraper.py`, `sneakerfiles_scraper.py`,
`sneaktorious_scraper.py`): primary Supabase upserts per item, with a
one-shot switch to `save_to_postgres_direct` on a JWT/401 error. -/
def save_to_supabase {α : Type} (resp : Nat → UpsertResp) (connOk : Bool)
    (pgOk : Nat → Bool) (items : List α) : SaveResult :=
  saveLoop resp connOk pgOk items items 0 {}

end SoleSink

/-! ## Fixtures used by the concrete counterexamples and witnesses -/

namespace Fixtures

/-- A `datetime.fromisoformat` collaborator that parses nothing (no
counterexample below involves a date string). -/
def parse0 : String → Option Int := fun _ => none

/-- A `float(...)` collaborator that parses nothing. -/
def parseF0 : String → Option Rat := fun _ => none

/-- A keyless scraped document: no `sku`, no `name`. -/
def keylessA : Ingest.RawDoc := { brand := some "Nike" }

/-- A second, different keyless scraped document. -/
def keylessB : Ingest.RawDoc := { brand := some "adidas" }

/-- A document named `"A"`. -/
def namedA : Ingest.RawDoc := { name := some "A" }

/-- A document named `"B"`. -/
def namedB : Ingest.RawDoc := { name := some "B" }

/-- A document whose status is `"available"`. -/
def availDoc : Ingest.RawDoc := { name := some "x", status := some "available" }

/-- A document whose status is `"announced"`. -/
def announcedDoc : Ingest.RawDoc :=
  { name := some "x", status := some "announced" }

/-- The spec's worked status example: a cluster carrying `"announced"`,
`"upcoming"` and `"sold_out"`. -/
def statusExampleDocs : List Ingest.RawDoc :=
  [{ name := some "x", status := some "announced" },
   { name := some "x", status := some "upcoming" },
   { name := some "x", status := some "sold_out" }]

/-- A document with a sku and the name `"foo"`. -/
def skuDocA : Ingest.RawDoc := { sku := some "CT8532-104", name := some "foo" }

/-- A document with the same sku as `skuDocA` but another name. -/
def skuDocA2 : Ingest.RawDoc := { sku := some "CT8532-104", name := some "bar" }

/-- A document with a different sku but the same name as `skuDocA`. -/
def skuDocB : Ingest.RawDoc := { sku := some "DZ5485-612", name := some "foo" }

/-- A raw scraped item with every field absent. -/
def emptyRelease : BaseScraper.RawRelease := {}

/-- A Firestore document carrying only a `url`. -/
def urlOnlyDoc : SyncFS.FsDoc := { url := some (.s "https://a.example/1") }

/-- A second Firestore document carrying only a `url`. -/
def urlOnlyDoc2 : SyncFS.FsDoc := { url := some (.s "https://a.example/2") }

/-- Existing column state with a non-null `currency`. -/
def existingEUR : String → Option SyncFS.Val :=
  fun k => if k = "currency" then some (.s "EUR") else none

/-- An HTTP oracle answering the first request with `429 Retry-After: 7`
and every later request with a transport exception. -/
def oracle429 : Nat → SoleFetch.HttpResp :=
  fun n => if n = 0 then .http 429 (some 7) else .exc

/-- An HTTP oracle answering the first request with `429 Retry-After: 7`
and every later request with success. -/
def oracle429ok : Nat → SoleFetch.HttpResp :=
  fun n => if n = 0 then .http 429 (some 7) else .ok

/-- A Supabase-client oracle: first upsert succeeds, every later one
raises a JWT error. -/
def respJwt : Nat → SoleSink.UpsertResp :=
  fun n => if n = 0 then .okData else .exc "invalid JWT token"

end Fixtures

/-- The status rank table as the specification writes it
(`live = available = 3, upcoming = 2, announced = 1, sold_out = 0`,
anything else `0`); stated only to be compared against the code's
table `Ingest.statusPriority`. -/
def specStatusRank (s : String) : Nat :=
  if s = "live" then 3
  else if s = "available" then 3
  else if s = "upcoming" then 2
  else if s = "announced" then 1
  else 0

/-- Equality of two merged documents on every field except
`last_merged_at`. -/
def Ingest.contentEq (a b : Ingest.MergedDoc) : Prop :=
  a.name = b.name ∧ a.sku = b.sku ∧ a.brand = b.brand ∧ a.images = b.images
    ∧ a.release_date = b.release_date ∧ a.locations = b.locations
    ∧ a.sources = b.sources ∧ a.status = b.status
    ∧ a.raw_sources = b.raw_sources

/-! ## Grouping lemmas (`ingest.py` `run_ingest`) -/

namespace Ingest

theorem lookupGroup_nil (k : String) : lookupGroup [] k = none := rfl

theorem lookupGroup_cons (k' : String) (ds : List RawDoc)
    (rest : List (String × List RawDoc)) (k : String) :
    lookupGroup ((k', ds) :: rest) k
      = if k' = k then some ds else lookupGroup rest k := by
  by_cases h : k' = k
  · rw [if_pos h]
    unfold lookupGroup
    rw [List.find?_cons_of_pos _ (by simpa using h)]
    rfl
  · rw [if_neg h]
    unfold lookupGroup
    rw [List.find?_cons_of_neg _ (by simpa using h)]

theorem lookupGroup_addToGroup_self (gs : List (String × List RawDoc))
    (k : String) (d : RawDoc) :
    lookupGroup (addToGroup gs k d) k
      = some ((lookupGroup gs k).getD [] ++ [d]) := by
  induction gs with
  | nil => simp [addToGroup, lookupGroup_cons, lookupGroup_nil]
  | cons g rest ih =>
    obtain ⟨k', ds⟩ := g
    by_cases h : k' = k
    · subst h
      simp [addToGroup, lookupGroup_cons]
    · simp only [addToGroup, if_neg h]
      rw [lookupGroup_cons, if_neg h, ih, lookupGroup_cons, if_neg h]

theorem lookupGroup_addToGroup_other (gs : List (String × List RawDoc))
    (k k₂ : String) (d : RawDoc) (h : k₂ ≠ k) :
    lookupGroup (addToGroup gs k d) k₂ = lookupGroup gs k₂ := by
  induction gs with
  | nil => simp [addToGroup, lookupGroup_cons, lookupGroup_nil, Ne.symm h]
  | cons g rest ih =>
    obtain ⟨k', ds⟩ := g
    by_cases hk : k' = k
    · subst hk
      simp [addToGroup, lookupGroup_cons, Ne.symm h]
    · simp only [addToGroup, if_neg hk]
      rw [lookupGroup_cons, ih, lookupGroup_cons]

theorem lookupGroup_foldl_mono (docs : List RawDoc) :
    ∀ (gs : List (String × List RawDoc)) (k : String) (ds : List RawDoc)
      (x : RawDoc), lookupGroup gs k = some ds → x ∈ ds →
      ∃ ds', lookupGroup
          (docs.foldl (fun a d => addToGroup a (clusterKey d) d) gs) k
        = some ds' ∧ x ∈ ds' := by
  induction docs with
  | nil => exact fun gs k ds x h hx => ⟨ds, h, hx⟩
  | cons d docs ih =>
    intro gs k ds x h hx
    simp only [List.foldl_cons]
    by_cases hk : clusterKey d = k
    · subst hk
      refine ih _ _ _ x (lookupGroup_addToGroup_self gs _ d) ?_
      rw [h]
      exact List.mem_append_left _ hx
    · exact ih _ _ _ x
        ((lookupGroup_addToGroup_other gs _ k d (Ne.symm hk)).trans h) hx

theorem mem_groupDocs (docs : List RawDoc) (d : RawDoc) (hd : d ∈ docs) :
    ∃ ds, lookupGroup (groupDocs docs) (clusterKey d) = some ds ∧ d ∈ ds := by
  rw [groupDocs]
  suffices h : ∀ (docs : List RawDoc) (gs : List (String × List RawDoc)),
      d ∈ docs → ∃ ds, lookupGroup
          (docs.foldl (fun a d => addToGroup a (clusterKey d) d) gs)
          (clusterKey d) = some ds ∧ d ∈ ds from h docs [] hd
  intro docs
  induction docs with
  | nil => intro gs hd; cases hd
  | cons d₀ docs ih =>
    intro gs hd
    simp only [List.foldl_cons]
    rcases List.mem_cons.mp hd with rfl | hd'
    · refine lookupGroup_foldl_mono docs _ _ _ d
        (lookupGroup_addToGroup_self gs _ d) ?_
      exact List.mem_append_right _ (List.mem_singleton.mpr rfl)
    · exact ih _ hd'

end Ingest

namespace Ingest

theorem clusterKey_of_sku (d : RawDoc) (s : String) (h : d.sku = some s)
    (hs : s ≠ "") : clusterKey d = "sku::" ++ s := by
  simp [clusterKey, truthyStr, h, hs]

theorem clusterKey_of_keyless (d : RawDoc) (hs : truthyStr d.sku = none)
    (hn : truthyStr d.name = none) : clusterKey d = "name::" := by
  have hname : d.name = none ∨ d.name = some "" := by
    cases h : d.name with
    | none => exact Or.inl rfl
    | some n =>
      rw [h] at hn
      by_cases hn' : n = ""
      · subst hn'
        exact Or.inr rfl
      · simp [truthyStr, hn'] at hn
  rcases hname with h | h <;> simp [clusterKey, hs, h] <;> decide

theorem string_append_left_cancel (p a b : String) (h : p ++ a = p ++ b) :
    a = b := by
  cases a with
  | mk la =>
    cases b with
    | mk lb =>
      have hd := congrArg String.data h
      simp only [String.data_append] at hd
      have h2 := List.append_cancel_left hd
      exact congrArg String.mk h2

/-- C1 (amended): a record with no truthy `sku` and no truthy `name` is
*not* dropped by `run_ingest`; it is assigned the cluster key
`"name::"` (the empty normalized name), any two such records get the
same key, and every such record in a batch lands inside the single
group stored under `"name::"`. -/
theorem keyless_records_share_empty_name_cluster (d₁ d₂ : RawDoc)
    (hs₁ : truthyStr d₁.sku = none) (hn₁ : truthyStr d₁.name = none)
    (hs₂ : truthyStr d₂.sku = none) (hn₂ : truthyStr d₂.name = none) :
    clusterKey d₁ = "name::" ∧ clusterKey d₁ = clusterKey d₂
      ∧ ∀ docs, d₁ ∈ docs →
          ∃ ds, lookupGroup (groupDocs docs) "name::" = some ds ∧ d₁ ∈ ds := by
  have h₁ := clusterKey_of_keyless d₁ hs₁ hn₁
  have h₂ := clusterKey_of_keyless d₂ hs₂ hn₂
  refine ⟨h₁, h₁.trans h₂.symm, fun docs hd => ?_⟩
  have := mem_groupDocs docs d₁ hd
  rwa [h₁] at this

/-- C1 (counterexample to the claim as stated): two records with no
dedup key of any kind are not dropped before grouping — they are placed
together into the one cluster keyed `"name::"`, and `run_ingest` merges
them into a single output document. -/
theorem keyless_records_merged_counterexample :
    groupDocs [Fixtures.keylessA, Fixtures.keylessB]
        = [("name::", [Fixtures.keylessA, Fixtures.keylessB])]
      ∧ (Ingest.run_ingest Fixtures.parse0 0
          [Fixtures.keylessA, Fixtures.keylessB]).map Prod.fst = ["name::"]
      ∧ Fixtures.keylessA ≠ Fixtures.keylessB := by
  refine ⟨by decide, by decide, by decide⟩

/-- C1 witness: the amended statement applied to the two concrete
keyless records. -/
theorem keyless_records_share_empty_name_cluster_witness :
    clusterKey Fixtures.keylessA = "name::"
      ∧ clusterKey Fixtures.keylessA = clusterKey Fixtures.keylessB :=
  have h := keyless_records_share_empty_name_cluster Fixtures.keylessA
    Fixtures.keylessB (by decide) (by decide) (by decide) (by decide)
  ⟨h.1, h.2.1⟩

/-- C6 (confirmed): a record with a truthy sku always clusters under
`"sku::" + sku` (its name plays no role); equal skus give the same
cluster key, distinct skus give distinct cluster keys (names
notwithstanding); and in any batch such a record lands inside the group
stored under its sku key. -/
theorem sku_key_priority (d₁ d₂ : RawDoc) (s₁ s₂ : String)
    (h₁ : d₁.sku = some s₁) (hs₁ : s₁ ≠ "")
    (h₂ : d₂.sku = some s₂) (hs₂ : s₂ ≠ "") :
    clusterKey d₁ = "sku::" ++ s₁
      ∧ (s₁ = s₂ → clusterKey d₁ = clusterKey d₂)
      ∧ (s₁ ≠ s₂ → clusterKey d₁ ≠ clusterKey d₂)
      ∧ ∀ docs, d₁ ∈ docs →
          ∃ ds, lookupGroup (groupDocs docs) ("sku::" ++ s₁) = some ds
            ∧ d₁ ∈ ds := by
  have hk₁ := clusterKey_of_sku d₁ s₁ h₁ hs₁
  have hk₂ := clusterKey_of_sku d₂ s₂ h₂ hs₂
  refine ⟨hk₁, ?_, ?_, fun docs hd => ?_⟩
  · rintro rfl
    rw [hk₁, hk₂]
  · intro hne heq
    rw [hk₁, hk₂] at heq
    exact hne (string_append_left_cancel _ _ _ heq)
  · have := mem_groupDocs docs d₁ hd
    rwa [hk₁] at this

/-- C6 witness: two records sharing the sku `CT8532-104` but not the
name share a cluster key, while a record with the same name but the sku
`DZ5485-612` gets another cluster key. -/
theorem sku_key_priority_witness :
    clusterKey Fixtures.skuDocA = clusterKey Fixtures.skuDocA2
      ∧ clusterKey Fixtures.skuDocA ≠ clusterKey Fixtures.skuDocB :=
  have ha := sku_key_priority Fixtures.skuDocA Fixtures.skuDocA2
    "CT8532-104" "CT8532-104" rfl (by decide) rfl (by decide)
  have hb := sku_key_priority Fixtures.skuDocA Fixtures.skuDocB
    "CT8532-104" "DZ5485-612" rfl (by decide) rfl (by decide)
  ⟨ha.2.1 rfl, hb.2.2.1 (by decide)⟩

end Ingest

/-! ## Merge lemmas (`ingest.py` `merge_docs`) -/

namespace Ingest

theorem foldl_max_mem (x : Int) (xs : List Int) : xs.foldl max x ∈ x :: xs := by
  induction xs generalizing x with
  | nil => simp
  | cons y ys ih =>
    simp only [List.foldl_cons]
    have h := ih (max x y)
    rcases List.mem_cons.mp h with h | h
    · rw [h]
      rcases max_choice x y with h' | h' <;> rw [h']
      · exact List.mem_cons_self _ _
      · exact List.mem_cons_of_mem _ (List.mem_cons_self _ _)
    · exact List.mem_cons_of_mem _ (List.mem_cons_of_mem _ h)

theorem le_foldl_max (x : Int) (xs : List Int) :
    ∀ a ∈ x :: xs, a ≤ xs.foldl max x := by
  induction xs generalizing x with
  | nil =>
    intro a ha
    simp only [List.mem_singleton] at ha
    simp [ha]
  | cons y ys ih =>
    intro a ha
    simp only [List.foldl_cons]
    rcases List.mem_cons.mp ha with rfl | ha'
    · exact le_trans (le_max_left a y) (ih (max a y) _ (List.mem_cons_self _ _))
    · rcases List.mem_cons.mp ha' with rfl | ha''
      · exact le_trans (le_max_right x a)
          (ih (max x a) _ (List.mem_cons_self _ _))
      · exact ih (max x y) a (List.mem_cons_of_mem _ ha'')

theorem pyMaxInt_eq_some_iff (l : List Int) (m : Int) :
    pyMaxInt l = some m ↔ m ∈ l ∧ ∀ a ∈ l, a ≤ m := by
  cases l with
  | nil => simp [pyMaxInt]
  | cons x xs =>
    simp only [pyMaxInt, Option.some.injEq]
    constructor
    · rintro rfl
      exact ⟨foldl_max_mem x xs, le_foldl_max x xs⟩
    · rintro ⟨hm, hle⟩
      exact le_antisymm (hle _ (foldl_max_mem x xs)) (le_foldl_max x xs m hm)

theorem pyMaxInt_eq_none_iff (l : List Int) : pyMaxInt l = none ↔ l = [] := by
  cases l <;> simp [pyMaxInt]

theorem pyMaxInt_perm {l₁ l₂ : List Int} (h : l₁.Perm l₂) :
    pyMaxInt l₁ = pyMaxInt l₂ := by
  cases h₁ : pyMaxInt l₁ with
  | none =>
    rw [pyMaxInt_eq_none_iff] at h₁
    subst h₁
    rw [show l₂ = [] from List.Perm.eq_nil h.symm]
    rfl
  | some m =>
    rw [pyMaxInt_eq_some_iff] at h₁
    symm
    rw [pyMaxInt_eq_some_iff]
    exact ⟨(h.mem_iff).mp h₁.1, fun a ha => h₁.2 a ((h.mem_iff).mpr ha)⟩

theorem foldl_pick_mem (f : String → Nat) (x : String) (xs : List String) :
    xs.foldl (fun best y => if f y > f best then y else best) x ∈ x :: xs := by
  induction xs generalizing x with
  | nil => simp
  | cons y ys ih =>
    simp only [List.foldl_cons]
    have h := ih (if f y > f x then y else x)
    rcases List.mem_cons.mp h with h | h
    · rw [h]
      split
      · exact List.mem_cons_of_mem _ (List.mem_cons_self _ _)
      · exact List.mem_cons_self _ _
    · exact List.mem_cons_of_mem _ (List.mem_cons_of_mem _ h)

theorem le_foldl_pick (f : String → Nat) (x : String) (xs : List String) :
    ∀ t ∈ x :: xs,
      f t ≤ f (xs.foldl (fun best y => if f y > f best then y else best) x) := by
  induction xs generalizing x with
  | nil =>
    intro t ht
    simp only [List.mem_singleton] at ht
    simp [ht]
  | cons y ys ih =>
    intro t ht
    simp only [List.foldl_cons]
    have hx : f x ≤ f (if f y > f x then y else x) := by
      split
      · omega
      · exact le_refl _
    have hy : f y ≤ f (if f y > f x then y else x) := by
      split
      · exact le_refl _
      · omega
    rcases List.mem_cons.mp ht with rfl | ht'
    · exact le_trans hx (ih _ _ (List.mem_cons_self _ _))
    · rcases List.mem_cons.mp ht' with rfl | ht''
      · exact le_trans hy (ih _ _ (List.mem_cons_self _ _))
      · exact ih _ t (List.mem_cons_of_mem _ ht'')

theorem pyMaxBy_spec (f : String → Nat) (l : List String) (s : String)
    (h : pyMaxBy f l = some s) : s ∈ l ∧ ∀ t ∈ l, f t ≤ f s := by
  cases l with
  | nil => cases h
  | cons x xs =>
    simp only [pyMaxBy, Option.some.injEq] at h
    subst h
    exact ⟨foldl_pick_mem f x xs, le_foldl_pick f x xs⟩

theorem mem_unionAppend (xs : List String) :
    ∀ (acc : List String) (x : String),
      x ∈ unionAppend acc xs ↔ x ∈ acc ∨ x ∈ xs := by
  induction xs with
  | nil => simp [unionAppend]
  | cons y ys ih =>
    intro acc x
    have step : unionAppend acc (y :: ys)
        = unionAppend (if y ∉ acc then acc ++ [y] else acc) ys := by
      simp only [unionAppend, List.foldl_cons]
    rw [step, ih]
    by_cases hy : y ∈ acc
    · simp only [hy, not_true, if_neg (not_not_intro hy)]
      constructor
      · rintro (h | h)
        · exact Or.inl h
        · exact Or.inr (List.mem_cons_of_mem _ h)
      · rintro (h | h)
        · exact Or.inl h
        · rcases List.mem_cons.mp h with rfl | h'
          · exact Or.inl hy
          · exact Or.inr h'
    · simp only [if_pos hy, List.mem_append, List.mem_singleton]
      constructor
      · rintro ((h | h) | h)
        · exact Or.inl h
        · exact Or.inr (h ▸ List.mem_cons_self _ _)
        · exact Or.inr (List.mem_cons_of_mem _ h)
      · rintro (h | h)
        · exact Or.inl (Or.inl h)
        · rcases List.mem_cons.mp h with rfl | h'
          · exact Or.inl (Or.inr rfl)
          · exact Or.inr h'

theorem mem_dedupAppend (xs : List String) :
    ∀ (acc : List String) (x : String),
      x ∈ dedupAppend acc xs ↔ x ∈ acc ∨ (x ∈ xs ∧ x ≠ "") := by
  induction xs with
  | nil => simp [dedupAppend]
  | cons y ys ih =>
    intro acc x
    have step : dedupAppend acc (y :: ys)
        = dedupAppend (if y ≠ "" ∧ y ∉ acc then acc ++ [y] else acc) ys := by
      simp only [dedupAppend, List.foldl_cons]
    rw [step, ih]
    by_cases hcond : y ≠ "" ∧ y ∉ acc
    · simp only [if_pos hcond, List.mem_append, List.mem_singleton]
      constructor
      · rintro ((h | h) | h)
        · exact Or.inl h
        · exact Or.inr ⟨h ▸ List.mem_cons_self _ _, h ▸ hcond.1⟩
        · exact Or.inr ⟨List.mem_cons_of_mem _ h.1, h.2⟩
      · rintro (h | ⟨hmem, hne⟩)
        · exact Or.inl (Or.inl h)
        · rcases List.mem_cons.mp hmem with rfl | h'
          · exact Or.inl (Or.inr rfl)
          · exact Or.inr ⟨h', hne⟩
    · simp only [if_neg hcond]
      rcases not_and_or.mp hcond with hy | hy
      · have hy' : y = "" := not_not.mp hy
        constructor
        · rintro (h | h)
          · exact Or.inl h
          · exact Or.inr ⟨List.mem_cons_of_mem _ h.1, h.2⟩
        · rintro (h | ⟨hmem, hne⟩)
          · exact Or.inl h
          · rcases List.mem_cons.mp hmem with rfl | h'
            · exact absurd hy' hne
            · exact Or.inr ⟨h', hne⟩
      · have hy' : y ∈ acc := not_not.mp hy
        constructor
        · rintro (h | h)
          · exact Or.inl h
          · exact Or.inr ⟨List.mem_cons_of_mem _ h.1, h.2⟩
        · rintro (h | ⟨hmem, hne⟩)
          · exact Or.inl h
          · rcases List.mem_cons.mp hmem with rfl | h'
            · exact Or.inl hy'
            · exact Or.inr ⟨h', hne⟩

theorem mem_mergedLocations (docs : List RawDoc) (x : String) :
    x ∈ mergedLocations docs ↔ ∃ d ∈ docs, x ∈ d.locations.getD [] := by
  rw [mergedLocations]
  suffices h : ∀ (docs : List RawDoc) (acc : List String),
      x ∈ docs.foldl (fun a d => unionAppend a (d.locations.getD [])) acc
        ↔ x ∈ acc ∨ ∃ d ∈ docs, x ∈ d.locations.getD [] by
    rw [h docs []]
    simp
  intro docs
  induction docs with
  | nil => simp
  | cons d ds ih =>
    intro acc
    simp only [List.foldl_cons]
    rw [ih, mem_unionAppend]
    constructor
    · rintro ((h | h) | h)
      · exact Or.inl h
      · exact Or.inr ⟨d, List.mem_cons_self _ _, h⟩
      · obtain ⟨d', hd', hx⟩ := h
        exact Or.inr ⟨d', List.mem_cons_of_mem _ hd', hx⟩
    · rintro (h | ⟨d', hd', hx⟩)
      · exact Or.inl (Or.inl h)
      · rcases List.mem_cons.mp hd' with rfl | h'
        · exact Or.inl (Or.inr hx)
        · exact Or.inr ⟨d', h', hx⟩

theorem mem_mergedSources (docs : List RawDoc) (x : String) :
    x ∈ mergedSources docs ↔ ∃ d ∈ docs, x ∈ d.sources.getD [] := by
  rw [mergedSources]
  suffices h : ∀ (docs : List RawDoc) (acc : List String),
      x ∈ docs.foldl (fun a d => unionAppend a (d.sources.getD [])) acc
        ↔ x ∈ acc ∨ ∃ d ∈ docs, x ∈ d.sources.getD [] by
    rw [h docs []]
    simp
  intro docs
  induction docs with
  | nil => simp
  | cons d ds ih =>
    intro acc
    simp only [List.foldl_cons]
    rw [ih, mem_unionAppend]
    constructor
    · rintro ((h | h) | h)
      · exact Or.inl h
      · exact Or.inr ⟨d, List.mem_cons_self _ _, h⟩
      · obtain ⟨d', hd', hx⟩ := h
        exact Or.inr ⟨d', List.mem_cons_of_mem _ hd', hx⟩
    · rintro (h | ⟨d', hd', hx⟩)
      · exact Or.inl (Or.inl h)
      · rcases List.mem_cons.mp hd' with rfl | h'
        · exact Or.inl (Or.inr hx)
        · exact Or.inr ⟨d', h', hx⟩

theorem mem_mergedImages (docs : List RawDoc) (x : String) :
    x ∈ mergedImages docs
      ↔ ∃ d ∈ docs, x ∈ d.images.getD [] ∧ x ≠ "" := by
  rw [mergedImages]
  suffices h : ∀ (docs : List RawDoc) (acc : List String),
      x ∈ docs.foldl (fun a d => dedupAppend a (d.images.getD [])) acc
        ↔ x ∈ acc ∨ ∃ d ∈ docs, x ∈ d.images.getD [] ∧ x ≠ "" by
    rw [h docs []]
    simp
  intro docs
  induction docs with
  | nil => simp
  | cons d ds ih =>
    intro acc
    simp only [List.foldl_cons]
    rw [ih, mem_dedupAppend]
    constructor
    · rintro ((h | h) | h)
      · exact Or.inl h
      · exact Or.inr ⟨d, List.mem_cons_self _ _, h⟩
      · obtain ⟨d', hd', hx⟩ := h
        exact Or.inr ⟨d', List.mem_cons_of_mem _ hd', hx⟩
    · rintro (h | ⟨d', hd', hx⟩)
      · exact Or.inl (Or.inl h)
      · rcases List.mem_cons.mp hd' with rfl | h'
        · exact Or.inl (Or.inr hx)
        · exact Or.inr ⟨d', h', hx⟩

end Ingest

namespace Ingest

theorem merge_images_getD (parse : String → Option Int) (now : Int)
    (l : List RawDoc) :
    (merge_docs parse now l).images.getD [] = mergedImages l := by
  by_cases h : mergedImages l = [] <;> simp [merge_docs, h]

theorem contentEq_merge (parse : String → Option Int) (n₁ n₂ : Int)
    (ds : List RawDoc) :
    contentEq (merge_docs parse n₁ ds) (merge_docs parse n₂ ds) :=
  ⟨rfl, rfl, rfl, rfl, rfl, rfl, rfl, rfl, rfl⟩

theorem forall₂_map_same {α β : Type} (l : List α) (f g : α → β)
    (R : β → β → Prop) (h : ∀ x ∈ l, R (f x) (g x)) :
    List.Forall₂ R (l.map f) (l.map g) := by
  induction l with
  | nil => constructor
  | cons x xs ih =>
    exact List.Forall₂.cons (h x (List.mem_cons_self _ _))
      (ih (fun y hy => h y (List.mem_cons_of_mem _ hy)))

/-- C2 (counterexample to the claim as stated): merging is *not*
independent of the batch order.  Reversing a two-record batch (a
permutation) changes the merged `name`: scalar fields take the first
truthy value in batch order. -/
theorem merge_not_order_independent_counterexample :
    ([Fixtures.namedA, Fixtures.namedB] : List RawDoc).Perm
        [Fixtures.namedB, Fixtures.namedA]
      ∧ (merge_docs Fixtures.parse0 0
          [Fixtures.namedA, Fixtures.namedB]).name = some "A"
      ∧ (merge_docs Fixtures.parse0 0
          [Fixtures.namedB, Fixtures.namedA]).name = some "B"
      ∧ merge_docs Fixtures.parse0 0 [Fixtures.namedA, Fixtures.namedB]
          ≠ merge_docs Fixtures.parse0 0 [Fixtures.namedB, Fixtures.namedA] :=
  ⟨List.Perm.swap _ _ _, by decide, by decide, by decide⟩

/-- C2 (amended): only part of the merge is order-independent.  Under
any permutation of the batch, the merged `release_date` (a maximum) is
unchanged, and the merged `images` / `locations` / `sources` lists keep
the same *membership* (their order, like the scalar fields `name`,
`sku`, `brand` and the `status` tie-breaking, follows batch order). -/
theorem merge_perm_invariant_fields (parse : String → Option Int)
    (now : Int) (l₁ l₂ : List RawDoc) (h : l₁.Perm l₂) :
    (merge_docs parse now l₁).release_date
        = (merge_docs parse now l₂).release_date
      ∧ (∀ x, x ∈ (merge_docs parse now l₁).locations
            ↔ x ∈ (merge_docs parse now l₂).locations)
      ∧ (∀ x, x ∈ (merge_docs parse now l₁).sources
            ↔ x ∈ (merge_docs parse now l₂).sources)
      ∧ (∀ x, x ∈ (merge_docs parse now l₁).images.getD []
            ↔ x ∈ (merge_docs parse now l₂).images.getD []) := by
  refine ⟨?_, ?_, ?_, ?_⟩
  · show pyMaxInt (parsedDates parse l₁) = pyMaxInt (parsedDates parse l₂)
    exact pyMaxInt_perm (List.Perm.filterMap _ (List.Perm.filterMap _ h))
  · intro x
    show x ∈ mergedLocations l₁ ↔ x ∈ mergedLocations l₂
    rw [mem_mergedLocations, mem_mergedLocations]
    constructor
    · rintro ⟨d, hd, hx⟩
      exact ⟨d, h.subset hd, hx⟩
    · rintro ⟨d, hd, hx⟩
      exact ⟨d, h.symm.subset hd, hx⟩
  · intro x
    show x ∈ mergedSources l₁ ↔ x ∈ mergedSources l₂
    rw [mem_mergedSources, mem_mergedSources]
    constructor
    · rintro ⟨d, hd, hx⟩
      exact ⟨d, h.subset hd, hx⟩
    · rintro ⟨d, hd, hx⟩
      exact ⟨d, h.symm.subset hd, hx⟩
  · intro x
    rw [merge_images_getD, merge_images_getD, mem_mergedImages,
      mem_mergedImages]
    constructor
    · rintro ⟨d, hd, hx⟩
      exact ⟨d, h.subset hd, hx⟩
    · rintro ⟨d, hd, hx⟩
      exact ⟨d, h.symm.subset hd, hx⟩

/-- C2 witness: the amended statement applied to the concrete reversed
two-record batch. -/
theorem merge_perm_invariant_fields_witness :
    (merge_docs Fixtures.parse0 0
        [Fixtures.namedA, Fixtures.namedB]).release_date
      = (merge_docs Fixtures.parse0 0
          [Fixtures.namedB, Fixtures.namedA]).release_date :=
  (merge_perm_invariant_fields Fixtures.parse0 0 _ _
    (List.Perm.swap _ _ _)).1

/-- C3 (counterexample to the claim as stated): the ingest output is not
a function of the batch alone — a second run with a later wall clock
(`datetime.utcnow()`) produces a different merged document, differing at
`last_merged_at`. -/
theorem ingest_output_depends_on_clock_counterexample :
    run_ingest Fixtures.parse0 0 [Fixtures.namedA]
      ≠ run_ingest Fixtures.parse0 1 [Fixtures.namedA] := by
  decide

/-- C3 (amended): two runs of `run_ingest` on the same batch produce the
same document ids in the same order, and documents equal on every field
except `last_merged_at`, whatever the wall clocks of the two runs. -/
theorem ingest_deterministic_up_to_clock (parse : String → Option Int)
    (now₁ now₂ : Int) (docs : List RawDoc) :
    (run_ingest parse now₁ docs).map Prod.fst
        = (run_ingest parse now₂ docs).map Prod.fst
      ∧ List.Forall₂ (fun a b => a.1 = b.1 ∧ contentEq a.2 b.2)
          (run_ingest parse now₁ docs) (run_ingest parse now₂ docs) := by
  constructor
  · rw [run_ingest, run_ingest, List.map_map, List.map_map]
    rfl
  · exact forall₂_map_same (groupDocs docs) _ _ _
      (fun g _ => ⟨rfl, contentEq_merge parse now₁ now₂ g.2⟩)

/-- C5 (counterexample to the claim as stated): the code's rank table is
`{"live": 3, "upcoming": 2, "announced": 1}` — it has no entry for
`"available"` (or `"sold_out"`), so in a cluster holding `"available"`
and `"announced"` the merge picks `"announced"`, while the
specification's table (`available = 3`) requires `"available"`. -/
theorem status_rank_spec_table_counterexample :
    (merge_docs Fixtures.parse0 0
        [Fixtures.availDoc, Fixtures.announcedDoc]).status
        = some "announced"
      ∧ "available" ∈ mergedStatuses [Fixtures.availDoc, Fixtures.announcedDoc]
      ∧ specStatusRank "announced" < specStatusRank "available" :=
  ⟨by decide, by decide, by decide⟩

/-- C5 (amended): the merged status is a status present in the cluster
that maximizes the *code's* rank table
`{"live": 3, "upcoming": 2, "announced": 1}`, every other string
(including `"available"` and `"sold_out"`) ranking 0; among equal ranks
the first in batch order wins. -/
theorem merged_status_maximal_code_rank (parse : String → Option Int)
    (now : Int) (docs : List RawDoc) (s : String)
    (h : (merge_docs parse now docs).status = some s) :
    s ∈ mergedStatuses docs
      ∧ ∀ t ∈ mergedStatuses docs, statusPriority t ≤ statusPriority s := by
  have h' : pyMaxBy statusPriority (mergedStatuses docs) = some s := h
  exact pyMaxBy_spec _ _ _ h'

/-- C5 witness: on the spec's worked example
`["announced", "upcoming", "sold_out"]` the merge picks `"upcoming"`,
which is in the cluster and maximizes the code's rank. -/
theorem merged_status_maximal_code_rank_witness :
    "upcoming" ∈ mergedStatuses Fixtures.statusExampleDocs
      ∧ ∀ t ∈ mergedStatuses Fixtures.statusExampleDocs,
          statusPriority t ≤ statusPriority "upcoming" :=
  merged_status_maximal_code_rank Fixtures.parse0 0
    Fixtures.statusExampleDocs "upcoming" (by decide)

end Ingest

namespace BaseScraper

/-- C9 (counterexample to the claim as stated): `normalize_release` does
store placeholder strings for missing data — an absent `brand` becomes
the literal `"Unknown"` and an absent `status` the default
`"upcoming"`, not `None`. -/
theorem normalize_release_placeholder_counterexample :
    (normalize_release Fixtures.parseF0 "https://base.example" "shopify_x" 0
        Fixtures.emptyRelease).brand = "Unknown"
      ∧ (normalize_release Fixtures.parseF0 "https://base.example"
          "shopify_x" 0 Fixtures.emptyRelease).status = "upcoming" :=
  ⟨by decide, by decide⟩

/-- C9 (amended): absent `release_date`, `style_code`, `image_url`,
`product_url` map to `None`, and an absent `retail_price` to `None` —
but an absent `brand` is stored as `"Unknown"`, an absent `status` as
`"upcoming"`, an absent `shoe_name` as `""` and an absent `scraped_url`
as the scraper's base URL. -/
theorem normalize_release_defaults (parseF : String → Option Rat)
    (baseUrl scraperName : String) (now : Int) (r : RawRelease) :
    (r.release_date = none →
        (normalize_release parseF baseUrl scraperName now r).release_date
          = none)
      ∧ (r.style_code = none →
          (normalize_release parseF baseUrl scraperName now r).style_code
            = none)
      ∧ (r.image_url = none →
          (normalize_release parseF baseUrl scraperName now r).image_url
            = none)
      ∧ (r.product_url = none →
          (normalize_release parseF baseUrl scraperName now r).product_url
            = none)
      ∧ (r.retail_price = none →
          (normalize_release parseF baseUrl scraperName now r).retail_price
            = none)
      ∧ (r.brand = none →
          (normalize_release parseF baseUrl scraperName now r).brand
            = "Unknown")
      ∧ (r.status = none →
          (normalize_release parseF baseUrl scraperName now r).status
            = "upcoming")
      ∧ (r.shoe_name = none →
          (normalize_release parseF baseUrl scraperName now r).shoe_name = "")
      ∧ (r.scraped_url = none →
          (normalize_release parseF baseUrl scraperName now r).scraped_url
            = baseUrl) := by
  refine ⟨?_, ?_, ?_, ?_, ?_, ?_, ?_, ?_, ?_⟩ <;> intro h
    <;> simp [normalize_release, parse_price, h]
  decide

/-- C9 witness: the amended statement applied to the all-absent raw
item. -/
theorem normalize_release_defaults_witness :
    (normalize_release Fixtures.parseF0 "https://base.example" "shopify_x" 0
        Fixtures.emptyRelease).retail_price = none
      ∧ (normalize_release Fixtures.parseF0 "https://base.example"
          "shopify_x" 0 Fixtures.emptyRelease).style_code = none :=
  have h := normalize_release_defaults Fixtures.parseF0 "https://base.example"
    "shopify_x" 0 Fixtures.emptyRelease
  ⟨h.2.2.2.2.1 rfl, h.2.1 rfl⟩

end BaseScraper

namespace SyncFS

/-- C10 (counterexample to the claim as stated): not every column whose
field is missing in the source document is left unchanged.  A document
with only a `url` still produces a payload with
`currency = "USD"` (likewise `source` and `has_raffle` defaults), so
the PATCH rewrites an existing `currency = "EUR"` to `"USD"`. -/
theorem sync_row_default_overwrites_counterexample :
    Fixtures.urlOnlyDoc.currency = none
      ∧ applyPatch (normalize_row Fixtures.parseF0 Fixtures.urlOnlyDoc)
          Fixtures.existingEUR "currency" = some (.s "USD")
      ∧ Fixtures.existingEUR "currency" = some (.s "EUR")
      ∧ (Val.s "USD") ≠ (Val.s "EUR") :=
  ⟨rfl, by decide, by decide, by decide⟩

/-- C10 (amended): the payload never carries a null — every payload
entry mirrors a non-`None` entry of the pre-filter row, a PATCH never
turns a non-null column null, and a column whose key is absent from the
payload is left unchanged.  (The keys `currency`, `source` and
`has_raffle` are present even when the source field is missing, since
`_normalize_row` fills them with the defaults `"USD"`,
`"firestore-sync"` and `False`.) -/
theorem sync_patch_never_writes_null (parseF : String → Option Rat)
    (d : FsDoc) (ex : String → Option Val) (k : String) :
    (∀ v, (k, v) ∈ normalize_row parseF d → (k, some v) ∈ rowRaw parseF d)
      ∧ (ex k ≠ none → applyPatch (normalize_row parseF d) ex k ≠ none)
      ∧ (lookupRow (normalize_row parseF d) k = none
          → applyPatch (normalize_row parseF d) ex k = ex k) := by
  refine ⟨?_, ?_, ?_⟩
  · intro v hv
    rw [normalize_row] at hv
    split at hv
    · obtain ⟨⟨k₀, v₀⟩, hkv, heq⟩ := List.mem_filterMap.mp hv
      obtain ⟨w, hw, heq2⟩ := Option.map_eq_some'.mp heq
      simp only [Prod.mk.injEq] at heq2
      obtain ⟨rfl, rfl⟩ := heq2
      have hw' : v₀ = some w := hw
      rw [hw'] at hkv
      exact hkv
    · cases hv
  · intro hex
    unfold applyPatch
    cases h : lookupRow (normalize_row parseF d) k with
    | some v => simp
    | none => simpa using hex
  · intro h
    unfold applyPatch
    rw [h]

/-- C10 witness: on the url-only document, the patched `currency` column
is non-null, and the `brand` column (absent from the payload) is left
unchanged. -/
theorem sync_patch_never_writes_null_witness :
    applyPatch (normalize_row Fixtures.parseF0 Fixtures.urlOnlyDoc)
        Fixtures.existingEUR "currency" ≠ none
      ∧ applyPatch (normalize_row Fixtures.parseF0 Fixtures.urlOnlyDoc)
          Fixtures.existingEUR "brand" = Fixtures.existingEUR "brand" :=
  ⟨(sync_patch_never_writes_null Fixtures.parseF0 Fixtures.urlOnlyDoc
      Fixtures.existingEUR "currency").2.1 (by decide),
   (sync_patch_never_writes_null Fixtures.parseF0 Fixtures.urlOnlyDoc
      Fixtures.existingEUR "brand").2.2 (by decide)⟩

/-- C4 (counterexample to the claim as stated): `sync_once` has no
secondary write path at all.  With both records of a batch answered 401
(an auth failure) on PATCH and on POST, the second record is still
attempted through the primary REST path — four primary calls in total,
two terminal errors, and nothing written through any fallback; the
direct-PostgreSQL code of this file runs only under the `--direct-pg`
CLI flag chosen at startup. -/
theorem sync_once_no_auth_fallback_counterexample :
    sync_once Fixtures.parseF0
        [(Fixtures.urlOnlyDoc, .status 401, .status 401),
         (Fixtures.urlOnlyDoc2, .status 401, .status 401)]
      = { processed := 2, upserts := 0, updates := 0, inserts := 0,
          skipped := 0, errors := 2, primaryCalls := 4 } := by
  decide

end SyncFS


namespace SoleFetch

theorem fetchLoop_reqs_le (oracle : Nat → HttpResp) (retryCount : Nat) :
    ∀ (attempts : List Nat) (st : FetchStats),
      (fetchLoop oracle retryCount attempts st).2.reqs
        ≤ st.reqs + attempts.length := by
  intro attempts
  induction attempts with
  | nil => intro st; simp [fetchLoop]
  | cons a rest ih =>
    intro st
    simp only [fetchLoop, List.length_cons]
    cases h : oracle st.reqs with
    | ok =>
      show st.reqs + 1 ≤ st.reqs + (rest.length + 1)
      omega
    | http code ra =>
      dsimp only
      by_cases h429 : code = 429
      · rw [if_pos h429]
        refine le_trans (ih _) ?_
        show st.reqs + 1 + rest.length ≤ st.reqs + (rest.length + 1)
        omega
      · rw [if_neg h429]
        by_cases h404 : code = 404
        · rw [if_pos h404]
          show st.reqs + 1 ≤ st.reqs + (rest.length + 1)
          omega
        · rw [if_neg h404]
          by_cases hlast : a = retryCount - 1
          · rw [if_pos hlast]
            show st.reqs + 1 ≤ st.reqs + (rest.length + 1)
            omega
          · rw [if_neg hlast]
            show st.reqs + 1 ≤ st.reqs + (rest.length + 1)
            omega
    | exc =>
      dsimp only
      by_cases hlt : a < retryCount - 1
      · rw [if_pos hlt]
        refine le_trans (ih _) ?_
        show st.reqs + 1 + rest.length ≤ st.reqs + (rest.length + 1)
        omega
      · rw [if_neg hlt]
        show st.reqs + 1 ≤ st.reqs + (rest.length + 1)
        omega

/-- C8 (confirmed): a URL that `can_fetch` disallows — whether through
the robots policy answer or through the hard-coded `/raffle/`, `/api/`,
`/user/` denylist — makes zero outbound network calls, takes the
blocked return path, and bumps the `blocked_by_robots` counter, leaving
the `errors` counter untouched. -/
theorem blocked_url_no_network_call (robots : String → Bool)
    (oracle : Nat → HttpResp) (url : String) (retryCount : Nat)
    (st : FetchStats) (h : can_fetch robots url = false) :
    (fetch_page robots oracle url retryCount st).1 = .blockedByRobots
      ∧ (fetch_page robots oracle url retryCount st).2.reqs = st.reqs
      ∧ (fetch_page robots oracle url retryCount st).2.blocked
          = st.blocked + 1
      ∧ (fetch_page robots oracle url retryCount st).2.errors = st.errors := by
  refine ⟨?_, ?_, ?_, ?_⟩ <;> simp [fetch_page, h]

/-- C8 witness: a raffle URL is blocked by the denylist even though the
robots policy allows everything, and any URL is blocked when the robots
policy denies it; neither issues a network call. -/
theorem blocked_url_no_network_call_witness :
    ((fetch_page (fun _ => true) (fun _ => .ok)
          "https://www.soleretriever.com/raffle/abc" 3 {}).1
        = .blockedByRobots
      ∧ (fetch_page (fun _ => true) (fun _ => .ok)
          "https://www.soleretriever.com/raffle/abc" 3 {}).2.reqs = 0)
      ∧ (fetch_page (fun _ => false) (fun _ => .ok)
          "https://example.com/ok" 3 {}).1 = .blockedByRobots :=
  ⟨⟨(blocked_url_no_network_call (fun _ => true) (fun _ => .ok)
        "https://www.soleretriever.com/raffle/abc" 3 {} (by decide)).1,
    (blocked_url_no_network_call (fun _ => true) (fun _ => .ok)
        "https://www.soleretriever.com/raffle/abc" 3 {} (by decide)).2.1⟩,
   (blocked_url_no_network_call (fun _ => false) (fun _ => .ok)
        "https://example.com/ok" 3 {} (by decide)).1⟩

/-- C7 (counterexample to the claim as stated): a 429 retry *does*
consume the attempt budget.  With `retry_count = 3` and responses
`[429 Retry-After: 7, exception, exception]`, the fetch makes exactly 3
outbound requests in total — only 2 non-rate-limited attempts follow
the 429 instead of the full 3 the claim promises — and gives up. -/
theorem fetch_429_counterexample :
    (fetch_page (fun _ => true) Fixtures.oracle429 "https://example.com/p" 3
        {}).2.reqs = 3
      ∧ ¬ (fetch_page (fun _ => true) Fixtures.oracle429
            "https://example.com/p" 3 {}).2.reqs = 1 + 3
      ∧ (fetch_page (fun _ => true) Fixtures.oracle429 "https://example.com/p"
          3 {}).2.waits = [7, 2]
      ∧ (fetch_page (fun _ => true) Fixtures.oracle429 "https://example.com/p"
          3 {}).1 = .excFailed :=
  ⟨by decide, by decide, by decide, by decide⟩

/-- C7 (amended): on a 429 the fetcher sleeps the `Retry-After` value
when the header is present (60 s otherwise) and then retries — but the
retry runs on the *remaining* `retry_count - 1` loop iterations, and the
total number of outbound requests of the whole fetch stays bounded by
`retry_count`: rate-limit retries are counted against the same attempt
budget. -/
theorem fetch_429_consumes_budget (robots : String → Bool)
    (oracle : Nat → HttpResp) (url : String) (ra : Option Nat)
    (retryCount : Nat) (st : FetchStats)
    (hcf : can_fetch robots url = true)
    (hresp : oracle st.reqs = .http 429 ra) (hrc : 0 < retryCount) :
    fetch_page robots oracle url retryCount st
        = fetchLoop oracle retryCount ((List.range retryCount).drop 1)
            { st with reqs := st.reqs + 1,
                      waits := st.waits ++ [ra.getD 60] }
      ∧ (fetch_page robots oracle url retryCount st).2.reqs
          ≤ st.reqs + retryCount := by
  obtain ⟨n, rfl⟩ : ∃ n, retryCount = n + 1 := ⟨retryCount - 1, by omega⟩
  have hstep : fetch_page robots oracle url (n + 1) st
      = fetchLoop oracle (n + 1) ((List.range (n + 1)).drop 1)
          { st with reqs := st.reqs + 1,
                    waits := st.waits ++ [ra.getD 60] } := by
    unfold fetch_page
    rw [if_pos hcf, List.range_succ_eq_map]
    simp only [fetchLoop, hresp]
    simp only [if_true, List.drop_succ_cons, List.drop_zero]
  refine ⟨hstep, ?_⟩
  rw [hstep]
  have h := fetchLoop_reqs_le oracle (n + 1) ((List.range (n + 1)).drop 1)
    { st with reqs := st.reqs + 1, waits := st.waits ++ [ra.getD 60] }
  simp only [List.length_drop, List.length_range] at h
  refine le_trans h ?_
  show st.reqs + 1 + (n + 1 - 1) ≤ st.reqs + (n + 1)
  omega

/-- C7 witness: the amended statement applied to a fetch whose first
response is `429 Retry-After: 7`. -/
theorem fetch_429_consumes_budget_witness :
    (fetch_page (fun _ => true) Fixtures.oracle429ok "https://example.com/p"
        3 {}).2.reqs ≤ 0 + 3 :=
  (fetch_429_consumes_budget (fun _ => true) Fixtures.oracle429ok
    "https://example.com/p" (some 7) 3 {} (by decide) (by decide)
    (by decide)).2

end SoleFetch

namespace SoleSink

theorem pgRunLoop_attempts {α : Type} (pgOk : Nat → Bool) :
    ∀ (items : List α) (i : Nat) (r : PgResult),
      (pgRunLoop pgOk items i r).attempts = r.attempts + items.length := by
  intro items
  induction items with
  | nil => intro i r; simp [pgRunLoop]
  | cons x rest ih =>
    intro i r
    simp only [pgRunLoop, List.length_cons]
    by_cases h : pgOk i
    · rw [if_pos h, ih]
      show r.attempts + 1 + rest.length = r.attempts + (rest.length + 1)
      omega
    · rw [if_neg h, ih]
      show r.attempts + 1 + rest.length = r.attempts + (rest.length + 1)
      omega

theorem save_direct_attempts {α : Type} (connOk : Bool) (pgOk : Nat → Bool)
    (items : List α) :
    (save_to_postgres_direct connOk pgOk items).attempts
      = if connOk then items.length else 0 := by
  cases connOk with
  | true => simp [save_to_postgres_direct, pgRunLoop_attempts]
  | false => simp [save_to_postgres_direct]

theorem saveLoop_first_auth {α : Type} (resp : Nat → UpsertResp)
    (connOk : Bool) (pgOk : Nat → Bool) (allItems : List α) :
    ∀ (rest : List α) (idx i : Nat) (acc : SaveResult),
      i < rest.length →
      (∀ j, j < i → isAuthResp (resp (idx + j)) = false) →
      isAuthResp (resp (idx + i)) = true →
      (saveLoop resp connOk pgOk allItems rest idx acc).fellBack = true
        ∧ (saveLoop resp connOk pgOk allItems rest idx acc).primaryCalls
            = acc.primaryCalls + i + 1
        ∧ (saveLoop resp connOk pgOk allItems rest idx acc).pgAttempts
            = (save_to_postgres_direct connOk pgOk allItems).attempts
        ∧ (saveLoop resp connOk pgOk allItems rest idx acc).saved
            = (save_to_postgres_direct connOk pgOk allItems).saved := by
  intro rest
  induction rest with
  | nil =>
    intro idx i acc hi
    exact absurd hi (Nat.not_lt_zero i)
  | cons x rest ih =>
    intro idx i acc hi hpre hauth
    cases i with
    | zero =>
      rw [Nat.add_zero] at hauth
      simp only [saveLoop]
      cases hresp : resp idx with
      | okData => simp [isAuthResp, hresp] at hauth
      | noData => simp [isAuthResp, hresp] at hauth
      | exc msg =>
        have hmsg : isAuthMsg msg = true := by
          simpa [isAuthResp, hresp] using hauth
        dsimp only
        rw [if_pos hmsg]
        refine ⟨rfl, ?_, rfl, rfl⟩
        show acc.primaryCalls + 1 = acc.primaryCalls + 0 + 1
        omega
    | succ i' =>
      have h0 : isAuthResp (resp idx) = false := by
        have h := hpre 0 (Nat.succ_pos i')
        rwa [Nat.add_zero] at h
      have hpre' : ∀ j, j < i' → isAuthResp (resp (idx + 1 + j)) = false := by
        intro j hj
        have h := hpre (j + 1) (by omega)
        rwa [show idx + (j + 1) = idx + 1 + j by omega] at h
      have hauth' : isAuthResp (resp (idx + 1 + i')) = true := by
        rwa [show idx + (i' + 1) = idx + 1 + i' by omega] at hauth
      have hi' : i' < rest.length := by
        rw [List.length_cons] at hi
        omega
      simp only [saveLoop]
      cases hresp : resp idx with
      | okData =>
        dsimp only
        have h := ih (idx + 1) i'
          { saved := acc.saved + 1, errors := acc.errors,
            primaryCalls := acc.primaryCalls + 1,
            pgAttempts := acc.pgAttempts, fellBack := acc.fellBack }
          hi' hpre' hauth'
        refine ⟨h.1, ?_, h.2.2.1, h.2.2.2⟩
        rw [h.2.1]
        show acc.primaryCalls + 1 + i' + 1 = acc.primaryCalls + (i' + 1) + 1
        omega
      | noData =>
        dsimp only
        have h := ih (idx + 1) i'
          { saved := acc.saved, errors := acc.errors + 1,
            primaryCalls := acc.primaryCalls + 1,
            pgAttempts := acc.pgAttempts, fellBack := acc.fellBack }
          hi' hpre' hauth'
        refine ⟨h.1, ?_, h.2.2.1, h.2.2.2⟩
        rw [h.2.1]
        show acc.primaryCalls + 1 + i' + 1 = acc.primaryCalls + (i' + 1) + 1
        omega
      | exc msg =>
        have hmsg : isAuthMsg msg = false := by
          simpa [isAuthResp, hresp] using h0
        dsimp only
        rw [if_neg (by rw [hmsg]; exact Bool.false_ne_true)]
        have h := ih (idx + 1) i'
          { saved := acc.saved, errors := acc.errors + 1,
            primaryCalls := acc.primaryCalls + 1,
            pgAttempts := acc.pgAttempts, fellBack := acc.fellBack }
          hi' hpre' hauth'
        refine ⟨h.1, ?_, h.2.2.1, h.2.2.2⟩
        rw [h.2.1]
        show acc.primaryCalls + 1 + i' + 1 = acc.primaryCalls + (i' + 1) + 1
        omega

/-- C4 (amended): the auth-triggered fallback lives in the scraper
sinks' `save_to_supabase` (soleretriever, news, sneakerfiles,
sneaktorious), not in `sync_once`.  There, when the first JWT/401 auth
error of a batch hits record `i`, the primary Supabase path stops after
exactly `i + 1` calls (it is never re-attempted for a later record),
the switch fires once, and the *whole* batch — every record, including
each one after `i` — is handed to the direct-PostgreSQL path (one
statement per record when the connection opens; none if it fails). -/
theorem save_to_supabase_auth_fallback {α : Type} (resp : Nat → UpsertResp)
    (connOk : Bool) (pgOk : Nat → Bool) (items : List α) (i : Nat)
    (hi : i < items.length)
    (hpre : ∀ j, j < i → isAuthResp (resp j) = false)
    (hauth : isAuthResp (resp i) = true) :
    (save_to_supabase resp connOk pgOk items).fellBack = true
      ∧ (save_to_supabase resp connOk pgOk items).primaryCalls = i + 1
      ∧ (save_to_supabase resp connOk pgOk items).pgAttempts
          = (if connOk then items.length else 0)
      ∧ (save_to_supabase resp connOk pgOk items).saved
          = (save_to_postgres_direct connOk pgOk items).saved := by
  have h := saveLoop_first_auth resp connOk pgOk items items 0 i {} hi
    (by intro j hj; simpa using hpre j hj) (by simpa using hauth)
  unfold save_to_supabase
  refine ⟨h.1, ?_, ?_, h.2.2.2⟩
  · rw [h.2.1]
    show 0 + i + 1 = i + 1
    omega
  · rw [h.2.2.1, save_direct_attempts]

/-- C4 witness: a four-item batch whose second upsert raises
`"invalid JWT token"` switches once, stops the primary path after two
calls, and writes all four items through the direct path. -/
theorem save_to_supabase_auth_fallback_witness :
    (save_to_supabase Fixtures.respJwt true (fun _ => true)
        ([(), (), (), ()] : List Unit)).fellBack = true
      ∧ (save_to_supabase Fixtures.respJwt true (fun _ => true)
          ([(), (), (), ()] : List Unit)).primaryCalls = 2
      ∧ (save_to_supabase Fixtures.respJwt true (fun _ => true)
          ([(), (), (), ()] : List Unit)).pgAttempts = 4 := by
  have h := save_to_supabase_auth_fallback Fixtures.respJwt true
    (fun _ => true) ([(), (), (), ()] : List Unit) 1 (by decide)
    (by intro j hj
        have hj0 : j = 0 := by omega
        subst hj0
        decide)
    (by decide)
  exact ⟨h.1, h.2.1, by rw [h.2.2.1]; decide⟩

end SoleSink
